import Mathlib

/-! Verification of the periodic-task driver in `src/discord/ext/tasks/__init__.py`.

The driver (Python class `Loop`) repeatedly runs a unit of work with a fixed
interval, retries transient failures with exponential backoff, counts
successful iterations, and surrounds the loop with before/after hooks.

Shallow-embedding conventions:

* Exception classes are modelled as `Nat` tags; the tuple
  `self._valid_exception` becomes a `List Nat`.  Python's
  `except self._valid_exception` test becomes list membership and the
  identity filter `x is not exc` in `remove_exception_type` becomes `!=`
  on tags.
* Durations are modelled as `ℚ`; the arithmetic the claims exercise
  (sums, comparisons with `0` and with `MAX_ASYNCIO_SECONDS`) is exact.
* The only property of the work callable that `__init__` inspects is
  `inspect.iscoroutinefunction(coro)`; it is modelled by the Boolean field
  `coro_is_coroutine_function`.
* The asynchronous run of `Loop._loop` is modelled by the interpreter
  `runLoop`.  The behaviour of the caller-supplied work and environment is a
  *script*: one entry per work invocation, carrying the retryable-exception
  set in effect at that invocation's failure check (the code re-reads
  `self._valid_exception` at every `except` clause, so the set may differ
  between steps) and the outcome of the invocation (success, a raised
  `asyncio.CancelledError`, or an exception of a given tag).  The
  interpreter produces the ordered trace of observable events (hook calls,
  work calls, fixed-interval sleeps, backoff sleeps), the final status as
  observed by whoever awaits the task, and the final value of
  `self._current_loop`.  An exhausted script means observation stopped while
  the loop is still running (`RunStatus.outOfScript`); in that case the
  `finally` block has not yet run.
* `Loop.start` and `Loop.cancel` are synchronous methods acting on the
  driver state; `start` is given the identity of the task handle that
  `loop.create_task` would mint, and `cancel` additionally reports the
  cancellation signal it fires (the id of the task it cancelled), `none`
  when it was a no-op.
-/

set_option autoImplicit false

namespace DiscordTasks

/-- The constant `MAX_ASYNCIO_SECONDS = 3456000` from the source module. -/
def MAX_ASYNCIO_SECONDS : ℚ := 3456000

/-- Tags for the eight default retryable exception classes installed by
`Loop.__init__`: `OSError`, `discord.HTTPException`,
`discord.GatewayNotFound`, `discord.ConnectionClosed`,
`aiohttp.ClientError`, `asyncio.TimeoutError`,
`websockets.InvalidHandshake`, `websockets.WebSocketProtocolError`,
in that order. -/
def defaultValidExceptions : List Nat := [0, 1, 2, 3, 4, 5, 6, 7]

/-- Observable state of an `asyncio.Task` handle: its identity and whether
the wrapped run has finished.  The `Loop` methods never read `done`; it is
needed only to express which driver states correspond to a finished run. -/
structure TaskHandle where
  id : Nat
  done : Bool
deriving DecidableEq

/-- State of one Python `Loop` object.  Leading underscores of the Python
attribute names are dropped (`_current_loop` → `current_loop`, `_task` →
`task`, `_valid_exception` → `valid_exception`, `_sleep` → `sleep`). -/
structure Loop where
  coro_is_coroutine_function : Bool
  seconds : ℚ
  hours : ℚ
  minutes : ℚ
  reconnect : Bool
  count : Option Int
  current_loop : Nat
  task : Option TaskHandle
  valid_exception : List Nat
  sleep : ℚ
deriving DecidableEq

/-- The distinct errors `Loop.__init__` can raise, in source order:
two `ValueError`s for `count` and the interval bounds and a `TypeError`
for a non-coroutine-function work argument. -/
inductive InitError
  | countNotPositive
  | sleepExceedsMax
  | sleepNegative
  | notCoroutineFunction
deriving DecidableEq

/-- Embedding of `Loop.__init__(coro, seconds, hours, minutes, count,
reconnect, loop)`.  The event-loop argument has no bearing on any modelled
state and is omitted.  Checks appear in source order: `count`, then the
summed interval against `MAX_ASYNCIO_SECONDS`, then negativity, then the
coroutine-function check. -/
def Loop.init (coro_is_coroutine_function : Bool) (seconds hours minutes : ℚ)
    (count : Option Int) (reconnect : Bool) : Except InitError Loop :=
  if (match count with | some c => decide (c ≤ 0) | none => false) then
    .error .countNotPositive
  else
    let sleep := seconds + minutes * 60 + hours * 3600
    if MAX_ASYNCIO_SECONDS ≤ sleep then
      .error .sleepExceedsMax
    else if sleep < 0 then
      .error .sleepNegative
    else if !coro_is_coroutine_function then
      .error .notCoroutineFunction
    else
      .ok { coro_is_coroutine_function := coro_is_coroutine_function,
            seconds := seconds, hours := hours, minutes := minutes,
            reconnect := reconnect, count := count,
            current_loop := 0, task := none,
            valid_exception := defaultValidExceptions, sleep := sleep }

/-- The `RuntimeError('Task is already launched.')` raised by `Loop.start`. -/
inductive StartError
  | taskAlreadyLaunched
deriving DecidableEq

/-- Embedding of `Loop.start`: raises when `self._task is not None`,
otherwise stores and returns the freshly created task handle.  The
positional arguments forwarded to the work are not part of the modelled
state. -/
def Loop.start (self : Loop) (freshId : Nat) : Except StartError (Loop × TaskHandle) :=
  match self.task with
  | some _ => .error .taskAlreadyLaunched
  | none =>
    let t : TaskHandle := { id := freshId, done := false }
    .ok ({ self with task := some t }, t)

/-- Embedding of `Loop.cancel`: when a task is stored, fire its `cancel()`
signal (reported as the second component) and clear `self._task`; otherwise
do nothing.  The method returns without waiting for the run to unwind. -/
def Loop.cancel (self : Loop) : Loop × Option Nat :=
  match self.task with
  | none => (self, none)
  | some t => ({ self with task := none }, some t.id)

/-- Whether the driver currently has an active (not yet finished) run.
Not a method of the source class; used to state which driver states count
as "currently running". -/
def Loop.isActive (self : Loop) : Bool :=
  match self.task with
  | some t => !t.done
  | none => false

/-- Embedding of `Loop.add_exception_type` (appends to the tuple).  In the
tag model every tag is a valid exception class, so the `isclass` /
`issubclass(exc, BaseException)` checks cannot fail and are omitted. -/
def Loop.add_exception_type (self : Loop) (exc : Nat) : Loop :=
  { self with valid_exception := self.valid_exception ++ [exc] }

/-- Embedding of `Loop.clear_exception_types`. -/
def Loop.clear_exception_types (self : Loop) : Loop :=
  { self with valid_exception := [] }

/-- Embedding of `Loop.remove_exception_type`: filters out every entry
identical to `exc` and reports whether the tuple length changed. -/
def Loop.remove_exception_type (self : Loop) (exc : Nat) : Loop × Bool :=
  let old_length := self.valid_exception.length
  let new_valid := self.valid_exception.filter (fun x => x != exc)
  ({ self with valid_exception := new_valid },
   decide (new_valid.length ≠ old_length))

/-- Embedding of `Loop.get_task`. -/
def Loop.get_task (self : Loop) : Option TaskHandle :=
  self.task

/-- Modelled from the spec: `ExponentialBackoff` is imported from
`discord.backoff`, a module of this repository that is not among the
sources.  Per the spec, the delay starts at a small base value, each call
to the generator roughly doubles the previous value up to a maximum
ceiling, and a reset operation restores the base value.  The randomized
jitter is omitted (randomness has no deterministic embedding); the value
produced is the nominal jitter-free delay. -/
structure ExponentialBackoff where
  base : ℚ
  cap : ℚ
  cur : ℚ
deriving DecidableEq

/-- Modelled from the spec: a fresh generator whose next delay is the base
value. -/
def ExponentialBackoff.init (base cap : ℚ) : ExponentialBackoff :=
  { base := base, cap := cap, cur := base }

/-- Modelled from the spec: return the next delay and advance the state by
doubling up to the ceiling. -/
def ExponentialBackoff.delay (b : ExponentialBackoff) : ℚ × ExponentialBackoff :=
  (b.cur, { b with cur := min (2 * b.cur) b.cap })

/-- Modelled from the spec: restore the generator to its base value. -/
def ExponentialBackoff.reset (b : ExponentialBackoff) : ExponentialBackoff :=
  { b with cur := b.base }

/-- Outcome of one invocation of the work coroutine, as seen by the
`try` block inside `Loop._loop`. -/
inductive WorkOutcome
  | success
  | cancelled
  | failure (kind : Nat)
deriving DecidableEq

/-- Behaviour of a registered before/after hook (or its absence).  The
source invokes a set hook through `_call_loop_function` and lets any
exception propagate. -/
inductive HookSpec
  | unset
  | ok
  | raises (kind : Nat)
deriving DecidableEq

/-- How a (fully observed) run of `Loop._loop` ended, as seen by whoever
awaits the task: normal self-termination at the configured count, a break
on `asyncio.CancelledError`, a propagated fatal work exception, a
propagated before-hook exception, a propagated after-hook exception, or
`outOfScript` when the observation script was exhausted while the loop was
still running. -/
inductive RunStatus
  | completed
  | cancelled
  | fatal (kind : Nat)
  | beforeHookFailed (kind : Nat)
  | afterHookFailed (kind : Nat)
  | outOfScript
deriving DecidableEq

/-- Observable events of a run, in order: hook invocations, work
invocations, the fixed-interval sleep `asyncio.sleep(self._sleep)` and the
backoff sleep `asyncio.sleep(backoff.delay())` with the slept amounts. -/
inductive Ev
  | before
  | work
  | sleepFixed (q : ℚ)
  | sleepBackoff (q : ℚ)
  | after
deriving DecidableEq

/-- One script entry per work invocation: the contents of
`self._valid_exception` at that invocation's failure check, and the
invocation's outcome. -/
abbrev Script := List (List Nat × WorkOutcome)

/-- The run-time configuration `Loop._loop` reads: `self._sleep`,
`self.count`, `self.reconnect` (none of which any method mutates), plus the
base and ceiling of the spec-modelled backoff generator. -/
structure RunCfg where
  sleep : ℚ
  count : Option Int
  reconnect : Bool
  base : ℚ
  cap : ℚ
deriving DecidableEq

/-- The run-time configuration of a given driver. -/
def Loop.runCfg (self : Loop) (base cap : ℚ) : RunCfg :=
  { sleep := self.sleep, count := self.count, reconnect := self.reconnect,
    base := base, cap := cap }

/-- Embedding of the `while True` body of `Loop._loop`, one script entry
per iteration of the Python `while`.  Mirrors the source exactly:
`asyncio.CancelledError` breaks; an exception whose tag is in the current
retryable set re-raises when `self.reconnect` is false and otherwise sleeps
the next backoff delay and retries without touching `self._current_loop`;
an exception outside the set propagates; on success the counter is
incremented, the loop breaks when it equals `self.count`, and otherwise the
fixed interval is slept. -/
def runBody (cfg : RunCfg) : Nat → ExponentialBackoff → Script →
    List Ev × RunStatus × Nat
  | c, _, [] => ([], .outOfScript, c)
  | c, b, (vs, o) :: rest =>
    match o with
    | .cancelled => ([.work], .cancelled, c)
    | .failure k =>
      if k ∈ vs then
        if cfg.reconnect then
          let d := b.delay
          let r := runBody cfg c d.2 rest
          (.work :: .sleepBackoff d.1 :: r.1, r.2)
        else ([.work], .fatal k, c)
      else ([.work], .fatal k, c)
    | .success =>
      if cfg.count = some ((c + 1 : Nat) : Int) then
        ([.work], .completed, c + 1)
      else
        let r := runBody cfg (c + 1) b rest
        (.work :: .sleepFixed cfg.sleep :: r.1, r.2)

/-- Full observation of one run. -/
structure RunResult where
  trace : List Ev
  status : RunStatus
  current_loop : Nat
deriving DecidableEq

/-- Trace contribution of one hook call site: a set hook is invoked, an
unset one is skipped by `_call_loop_function`. -/
def hookTrace (h : HookSpec) (e : Ev) : List Ev :=
  match h with
  | .unset => []
  | _ => [e]

/-- Embedding of `Loop._loop` as a whole.  A fresh `ExponentialBackoff()`
is created, then `_call_loop_function('before_loop')` runs BEFORE the
`try:` block — so a raising before-hook propagates without the `finally:`
(and hence the after-hook) ever running.  Otherwise the loop body runs
under `try`, and its `finally:` invokes the after-hook exactly once; an
exception raised by the after-hook inside `finally` replaces the in-flight
status, per Python semantics.  When the script is exhausted the loop is
still running, so no after-hook has run yet. -/
def runLoop (cfg : RunCfg) (before_loop after_loop : HookSpec) (c0 : Nat)
    (script : Script) : RunResult :=
  match before_loop with
  | .raises k =>
    { trace := [.before], status := .beforeHookFailed k, current_loop := c0 }
  | bh =>
    let r := runBody cfg c0 (ExponentialBackoff.init cfg.base cfg.cap) script
    if r.2.1 = .outOfScript then
      { trace := hookTrace bh .before ++ r.1, status := .outOfScript,
        current_loop := r.2.2 }
    else
      { trace := hookTrace bh .before ++ r.1 ++ hookTrace after_loop .after,
        status := match after_loop with
                  | .raises k2 => .afterHookFailed k2
                  | _ => r.2.1,
        current_loop := r.2.2 }

/-- The backoff delays slept during a trace, in order. -/
def backoffDelays : List Ev → List ℚ
  | [] => []
  | .sleepBackoff q :: tl => q :: backoffDelays tl
  | _ :: tl => backoffDelays tl

/-- The total interval `self._sleep = seconds + minutes*60 + hours*3600`
computed by `Loop.__init__`. -/
def totalInterval (seconds minutes hours : ℚ) : ℚ :=
  seconds + minutes * 60 + hours * 3600

/-- The trace of a run segment of `n` successful iterations none of which
reaches the configured count: each contributes a work call followed by the
fixed-interval sleep. -/
def successTrace (cfg : RunCfg) : Nat → List Ev
  | 0 => []
  | n + 1 => .work :: .sleepFixed cfg.sleep :: successTrace cfg n

/-- The nominal delays of `n` consecutive calls to the spec-modelled
backoff generator starting from current value `b` with ceiling `cap`. -/
def delaySeq (cap : ℚ) : ℚ → Nat → List ℚ
  | _, 0 => []
  | b, n + 1 => b :: delaySeq cap (min (2 * b) cap) n

/-- A freshly constructed driver (`Loop.init true 0 0 0 none true`),
used as a concrete instance in closed statements. -/
def sampleLoop : Loop :=
  { coro_is_coroutine_function := true, seconds := 0, hours := 0,
    minutes := 0, reconnect := true, count := none, current_loop := 0,
    task := none, valid_exception := defaultValidExceptions, sleep := 0 }

/-- A driver holding a running task handle. -/
def runningLoop : Loop :=
  { sampleLoop with task := some { id := 0, done := false } }

/-- A driver whose previous run has finished (its task handle is done) and
that was never cancelled, so `self._task` still holds the finished task. -/
def finishedLoop : Loop :=
  { sampleLoop with current_loop := 3, task := some { id := 0, done := true } }

/-- A small concrete run configuration used in closed statements. -/
def cfg0 : RunCfg :=
  { sleep := 0, count := none, reconnect := true, base := 1, cap := 120 }

/-- The configuration `cfg0` bounded at three iterations. -/
def cfg3 : RunCfg :=
  { cfg0 with count := some 3 }

/-- Single-step unfolding of `runBody` on an empty script. -/
theorem runBody_nil (cfg : RunCfg) (c : Nat) (b : ExponentialBackoff) :
    runBody cfg c b [] = ([], .outOfScript, c) := rfl

/-- Single-step unfolding of `runBody` on a cancelled work invocation. -/
theorem runBody_cons_cancelled (cfg : RunCfg) (c : Nat) (b : ExponentialBackoff)
    (vs : List Nat) (rest : Script) :
    runBody cfg c b ((vs, WorkOutcome.cancelled) :: rest) =
      ([.work], .cancelled, c) := rfl

/-- Single-step unfolding of `runBody` on a failing work invocation. -/
theorem runBody_cons_failure (cfg : RunCfg) (c : Nat) (b : ExponentialBackoff)
    (vs : List Nat) (k : Nat) (rest : Script) :
    runBody cfg c b ((vs, WorkOutcome.failure k) :: rest) =
      (if k ∈ vs then
        if cfg.reconnect then
          (.work :: .sleepBackoff b.delay.1 :: (runBody cfg c b.delay.2 rest).1,
           (runBody cfg c b.delay.2 rest).2)
        else ([.work], .fatal k, c)
       else ([.work], .fatal k, c)) := rfl

/-- Single-step unfolding of `runBody` on a successful work invocation. -/
theorem runBody_cons_success (cfg : RunCfg) (c : Nat) (b : ExponentialBackoff)
    (vs : List Nat) (rest : Script) :
    runBody cfg c b ((vs, WorkOutcome.success) :: rest) =
      (if cfg.count = some ((c + 1 : Nat) : Int) then
        ([.work], .completed, c + 1)
       else
        (.work :: .sleepFixed cfg.sleep :: (runBody cfg (c + 1) b rest).1,
         (runBody cfg (c + 1) b rest).2)) := rfl

/-- The loop body never emits hook events: hooks are invoked only outside
`while True`. -/
theorem runBody_no_hook_events (cfg : RunCfg) :
    ∀ (s : Script) (c : Nat) (b : ExponentialBackoff),
      Ev.after ∉ (runBody cfg c b s).1 ∧ Ev.before ∉ (runBody cfg c b s).1 := by
  intro s
  induction s with
  | nil => intro c b; simp [runBody]
  | cons e rest ih =>
    intro c b
    obtain ⟨vs, o⟩ := e
    cases o with
    | cancelled => simp [runBody]
    | failure k =>
      by_cases hk : k ∈ vs
      · by_cases hr : cfg.reconnect = true
        · have h2 := ih c b.delay.2
          simp only [runBody, hk, hr, if_true, if_pos]
          simp_all
        · simp [runBody, hk, hr]
      · simp [runBody, hk]
    | success =>
      by_cases hc : cfg.count = some ((c + 1 : Nat) : Int)
      · simp [runBody, hc]
      · have h2 := ih (c + 1) b
        simp only [runBody, hc, if_neg, if_false]
        simp_all

/-- Unfolding of `runLoop` when the before-hook does not raise. -/
theorem runLoop_of_not_raising (cfg : RunCfg) (bh ah : HookSpec) (c0 : Nat)
    (s : Script) (hbh : bh = HookSpec.unset ∨ bh = HookSpec.ok) :
    runLoop cfg bh ah c0 s =
      (let r := runBody cfg c0 (ExponentialBackoff.init cfg.base cfg.cap) s
       if r.2.1 = .outOfScript then
        { trace := hookTrace bh .before ++ r.1, status := .outOfScript,
          current_loop := r.2.2 }
       else
        { trace := hookTrace bh .before ++ r.1 ++ hookTrace ah .after,
          status := match ah with
                    | .raises k2 => .afterHookFailed k2
                    | _ => r.2.1,
          current_loop := r.2.2 }) := by
  rcases hbh with h | h <;> subst h <;> rfl

/-- Removing every occurrence of a tag changes the tuple length exactly
when the tag was present. -/
theorem length_filter_ne_iff_mem (k : Nat) :
    ∀ l : List Nat,
      ((l.filter (fun x => x != k)).length ≠ l.length) ↔ k ∈ l := by
  intro l
  induction l with
  | nil => simp
  | cons a tl ih =>
    by_cases hak : a = k
    · subst hak
      have hle := List.length_filter_le (fun x => x != a) tl
      simp [List.filter_cons]
      omega
    · simp [List.filter_cons, hak, ih, Ne.symm hak]

/-- C6: `cancel()` on a driver with an active handle clears the stored
handle immediately and fires the cancellation signal at that handle,
changing nothing else and not waiting for the run; on a driver with no
handle it is a no-op. -/
theorem cancel_clears_and_signals (d : Loop) (t : TaskHandle) :
    (d.task = some t → Loop.cancel d = ({ d with task := none }, some t.id)) ∧
    (d.task = none → Loop.cancel d = (d, none)) := by
  constructor
  · intro h; simp [Loop.cancel, h]
  · intro h; simp [Loop.cancel, h]

/-- Witness for C6 at concrete drivers. -/
theorem cancel_clears_and_signals_witness :
    Loop.cancel runningLoop = ({ runningLoop with task := none }, some 0) ∧
    Loop.cancel sampleLoop = (sampleLoop, none) :=
  ⟨(cancel_clears_and_signals runningLoop { id := 0, done := false }).1 rfl,
   (cancel_clears_and_signals sampleLoop { id := 0, done := false }).2 rfl⟩

/-- C2 (amended): `start()` raises the already-running error exactly when a
task handle is stored, whether or not its run has finished; when no handle
is stored it launches a new run, stores and returns the fresh handle, and
changes nothing else. -/
theorem start_raises_iff_task_stored (d : Loop) (i : Nat) :
    (Loop.start d i = .error .taskAlreadyLaunched ↔ d.task ≠ none) ∧
    (d.task = none →
      Loop.start d i =
        .ok ({ d with task := some { id := i, done := false } },
             { id := i, done := false })) := by
  cases htask : d.task <;> simp [Loop.start, htask]

/-- Witness for C2 at concrete drivers. -/
theorem start_raises_iff_task_stored_witness :
    Loop.start runningLoop 1 = .error .taskAlreadyLaunched ∧
    Loop.start sampleLoop 1 =
      .ok ({ sampleLoop with task := some { id := 1, done := false } },
           { id := 1, done := false }) :=
  ⟨(start_raises_iff_task_stored runningLoop 1).1.mpr (by decide),
   (start_raises_iff_task_stored sampleLoop 1).2 rfl⟩

/-- Counterexample to C2 as stated: a driver whose previous run completed
normally (finished task handle, never cancelled) is not currently running,
yet `start()` still raises the already-running error instead of launching a
new run. -/
theorem start_after_completed_run_counterexample :
    Loop.isActive finishedLoop = false ∧
    Loop.start finishedLoop 1 = .error .taskAlreadyLaunched := by
  exact ⟨rfl, rfl⟩

/-- C7: `remove_exception_type` returns true exactly when a matching entry
was present, after which the tag is gone from the set; and because the loop
reads the set afresh at each failure check, a failure carrying the removed
tag at the very next check is fatal (final answer of that run segment),
regardless of the retry policy. -/
theorem remove_exception_type_semantics (d : Loop) (k : Nat) (cfg : RunCfg)
    (c : Nat) (b : ExponentialBackoff) (rest : Script) :
    ((Loop.remove_exception_type d k).2 = true ↔ k ∈ d.valid_exception) ∧
    k ∉ (Loop.remove_exception_type d k).1.valid_exception ∧
    runBody cfg c b
        (((Loop.remove_exception_type d k).1.valid_exception,
          WorkOutcome.failure k) :: rest) =
      ([.work], .fatal k, c) := by
  refine ⟨?_, ?_, ?_⟩
  · simp [Loop.remove_exception_type, length_filter_ne_iff_mem]
  · simp [Loop.remove_exception_type]
  · have hk : k ∉ (Loop.remove_exception_type d k).1.valid_exception := by
      simp [Loop.remove_exception_type]
    simp [runBody, hk]

/-- A segment of successful iterations none of which reaches the
configured count: every step increments the counter and sleeps the fixed
interval, and the backoff state is never consulted. -/
theorem runBody_successes (cfg : RunCfg) (vs : List Nat) :
    ∀ (N c : Nat) (b : ExponentialBackoff),
      (∀ j : Nat, 1 ≤ j → j ≤ N → cfg.count ≠ some ((c + j : Nat) : Int)) →
      runBody cfg c b (List.replicate N (vs, WorkOutcome.success)) =
        (successTrace cfg N, .outOfScript, c + N) := by
  intro N
  induction N with
  | zero => intro c b _; simp [runBody, successTrace]
  | succ n ih =>
    intro c b hcount
    have hc1 : ¬ cfg.count = some ((c + 1 : Nat) : Int) :=
      hcount 1 le_rfl (by omega)
    rw [List.replicate_succ, runBody_cons_success, if_neg hc1, ih (c + 1) b ?_]
    · simp only [successTrace, Prod.mk.injEq, true_and]
      omega
    · intro j hj1 hjn
      have h2 := hcount (j + 1) (by omega) (by omega)
      have h3 : (c + (j + 1) : Nat) = (c + 1 + j : Nat) := by omega
      rw [h3] at h2
      exact h2

/-- A segment of `n + 1` successful iterations whose last one reaches the
configured count: the loop breaks right after the final work call, before
any further sleep, ignoring the rest of the script. -/
theorem runBody_bounded_completes (cfg : RunCfg) (vs : List Nat) (rest : Script) :
    ∀ (n c : Nat) (b : ExponentialBackoff),
      cfg.count = some ((c + (n + 1) : Nat) : Int) →
      runBody cfg c b
          (List.replicate (n + 1) (vs, WorkOutcome.success) ++ rest) =
        (successTrace cfg n ++ [.work], .completed, c + (n + 1)) := by
  intro n
  induction n with
  | zero =>
    intro c b hcount
    simp [runBody, hcount, successTrace]
  | succ m ih =>
    intro c b hcount
    have hne : ¬ cfg.count = some ((c + 1 : Nat) : Int) := by
      rw [hcount]
      simp only [Option.some.injEq, Nat.cast_inj]
      omega
    have harg : cfg.count = some ((c + 1 + (m + 1) : Nat) : Int) := by
      rw [hcount]
      have h3 : (c + (m + 1 + 1) : Nat) = (c + 1 + (m + 1) : Nat) := by omega
      rw [h3]
    rw [List.replicate_succ, List.cons_append, runBody_cons_success, if_neg hne,
        ih (c + 1) b harg]
    simp only [successTrace, Prod.mk.injEq, List.cons_append, true_and]
    omega

/-- Work calls in a pure-success trace segment. -/
theorem successTrace_count_work (cfg : RunCfg) :
    ∀ n, (successTrace cfg n).count Ev.work = n := by
  intro n
  induction n with
  | zero => simp [successTrace]
  | succ m ih => simp [successTrace, List.count_cons, ih]

/-- Fixed-interval sleeps in a pure-success trace segment. -/
theorem successTrace_count_sleepFixed (cfg : RunCfg) :
    ∀ n, (successTrace cfg n).count (Ev.sleepFixed cfg.sleep) = n := by
  intro n
  induction n with
  | zero => simp [successTrace]
  | succ m ih => simp [successTrace, List.count_cons, ih]

/-- A pure-success trace segment sleeps no backoff delay. -/
theorem successTrace_backoffDelays (cfg : RunCfg) :
    ∀ n, backoffDelays (successTrace cfg n) = [] := by
  intro n
  induction n with
  | zero => simp [successTrace, backoffDelays]
  | succ m ih => simp [successTrace, backoffDelays, ih]

/-- Fields of a successfully constructed driver. -/
theorem init_ok_fields (w : Bool) (s h m : ℚ) (co : Option Int) (r : Bool)
    (d : Loop) (hd : Loop.init w s h m co r = .ok d) :
    d.current_loop = 0 ∧ d.task = none := by
  simp only [Loop.init] at hd
  split_ifs at hd <;> simp_all
  rw [← hd]
  exact ⟨rfl, rfl⟩

/-- C3: with the work succeeding at every invocation and hooks unset,
after N observed iterations the counter (started at 0) equals N and an
unbounded loop is still running; with a bounded count n ≤ N the loop
terminates normally at exactly n iterations — n work calls and only n - 1
fixed-interval sleeps, none after the final iteration; and with N < n the
loop has not terminated. -/
theorem iteration_counting (cfg : RunCfg) (vs : List Nat) (N : Nat) :
    (cfg.count = none →
      (runLoop cfg .unset .unset 0 (List.replicate N (vs, .success))).status =
          .outOfScript ∧
      (runLoop cfg .unset .unset 0 (List.replicate N (vs, .success))).current_loop
          = N) ∧
    (∀ n : Nat, cfg.count = some (n : Int) → 1 ≤ n → n ≤ N →
      (runLoop cfg .unset .unset 0 (List.replicate N (vs, .success))).status =
          .completed ∧
      (runLoop cfg .unset .unset 0 (List.replicate N (vs, .success))).current_loop
          = n ∧
      (runLoop cfg .unset .unset 0
          (List.replicate N (vs, .success))).trace.count Ev.work = n ∧
      (runLoop cfg .unset .unset 0
          (List.replicate N (vs, .success))).trace.count (Ev.sleepFixed cfg.sleep)
          = n - 1) ∧
    (∀ n : Nat, cfg.count = some (n : Int) → N < n →
      (runLoop cfg .unset .unset 0 (List.replicate N (vs, .success))).status =
          .outOfScript ∧
      (runLoop cfg .unset .unset 0 (List.replicate N (vs, .success))).current_loop
          = N) := by
  refine ⟨?_, ?_, ?_⟩
  · intro hnone
    rw [runLoop_of_not_raising cfg .unset .unset 0 _ (Or.inl rfl)]
    rw [runBody_successes cfg vs N 0 _ (by simp [hnone])]
    simp
  · intro n hn h1 hN
    obtain ⟨n2, rfl⟩ : ∃ n2, n = n2 + 1 := ⟨n - 1, by omega⟩
    have hsplit : N = (n2 + 1) + (N - (n2 + 1)) := by omega
    rw [runLoop_of_not_raising cfg .unset .unset 0 _ (Or.inl rfl)]
    rw [hsplit, List.replicate_add]
    rw [runBody_bounded_completes cfg vs _ n2 0 _ (by simpa using hn)]
    simp [hookTrace, List.count_append, successTrace_count_work,
          successTrace_count_sleepFixed, List.count_cons, List.count_nil]
  · intro n hn hlt
    rw [runLoop_of_not_raising cfg .unset .unset 0 _ (Or.inl rfl)]
    rw [runBody_successes cfg vs N 0 _ ?_]
    · simp
    · intro j hj1 hjN
      rw [hn]
      simp only [ne_eq, Option.some.injEq, Nat.cast_inj]
      omega

/-- Witness for C3: interval 0, count 3, three successes: the run completes
with counter 3, three work calls and two fixed-interval sleeps. -/
theorem iteration_counting_witness :
    (runLoop cfg3 .unset .unset 0 (List.replicate 3 ([], .success))).status =
        .completed ∧
    (runLoop cfg3 .unset .unset 0 (List.replicate 3 ([], .success))).current_loop
        = 3 ∧
    (runLoop cfg3 .unset .unset 0
        (List.replicate 3 ([], .success))).trace.count Ev.work = 3 ∧
    (runLoop cfg3 .unset .unset 0
        (List.replicate 3 ([], .success))).trace.count (Ev.sleepFixed cfg3.sleep)
        = 2 := by
  have h := (iteration_counting cfg3 [] 3).2.1 3 (by decide) (by decide)
    (by decide)
  exact ⟨h.1, h.2.1, h.2.2.1, h.2.2.2⟩

/-- C9: construction succeeds exactly when a provided count is at least 1,
the summed interval is non-negative and below `MAX_ASYNCIO_SECONDS`, and
the work argument is a coroutine function; a constructed driver starts with
counter 0 and no stored task. -/
theorem construction_validation (w : Bool) (s h m : ℚ) (co : Option Int)
    (r : Bool) :
    ((∃ d, Loop.init w s h m co r = .ok d) ↔
      ((∀ c ∈ co, 1 ≤ c) ∧ 0 ≤ totalInterval s m h ∧
        totalInterval s m h < MAX_ASYNCIO_SECONDS ∧ w = true)) ∧
    (∀ d, Loop.init w s h m co r = .ok d →
      d.current_loop = 0 ∧ d.task = none) := by
  constructor
  · constructor
    · rintro ⟨d, hd⟩
      simp only [Loop.init] at hd
      split_ifs at hd with h1 h2 h3 h4
      refine ⟨?_, ?_, ?_, ?_⟩
      · intro c hc
        rw [Option.mem_def] at hc
        subst hc
        simp only [decide_eq_true_eq] at h1
        omega
      · simpa [totalInterval] using not_lt.mp h3
      · simpa [totalInterval] using not_le.mp h2
      · simpa using h4
    · rintro ⟨hc, h0, hmax, hw⟩
      subst hw
      simp only [totalInterval] at h0 hmax
      cases hres : Loop.init true s h m co r with
      | ok d => exact ⟨d, rfl⟩
      | error e =>
        exfalso
        simp only [Loop.init] at hres
        split_ifs at hres with h1 h2 h3 h4
        · cases co with
          | none => simp at h1
          | some c =>
            have hc1 := hc c rfl
            simp only [decide_eq_true_eq] at h1
            omega
        · exact absurd h2 (not_le.mpr hmax)
        · exact absurd h3 (not_lt.mpr h0)
        · simp at h4
  · intro d hd
    exact init_ok_fields w s h m co r d hd

/-- Witness for C9: the all-default valid configuration constructs; the
resulting driver is `sampleLoop`, with counter 0 and no task. -/
theorem construction_validation_witness :
    (∃ d, Loop.init true 0 0 0 none true = .ok d) ∧
    sampleLoop.current_loop = 0 ∧ sampleLoop.task = none := by
  have h := construction_validation true 0 0 0 none true
  have hinit : Loop.init true 0 0 0 none true = .ok sampleLoop := by
    norm_num [Loop.init, MAX_ASYNCIO_SECONDS, sampleLoop]
  exact ⟨⟨sampleLoop, hinit⟩, h.2 sampleLoop hinit⟩

/-- C10: the iteration counter is 0 only at construction; neither
`cancel()` nor `start()` resets it, and a run launched with the counter at
c0 continues counting from c0. -/
theorem counter_persistence (w : Bool) (s h m : ℚ) (co : Option Int)
    (r : Bool) (d d2 d3 : Loop) (i : Nat) (cfg : RunCfg) (c0 N : Nat)
    (vs : List Nat) :
    (Loop.init w s h m co r = .ok d → d.current_loop = 0) ∧
    (Loop.cancel d2).1.current_loop = d2.current_loop ∧
    (∀ p, Loop.start d3 i = .ok p → p.1.current_loop = d3.current_loop) ∧
    (cfg.count = none →
      (runLoop cfg .unset .unset c0 (List.replicate N (vs, .success))).current_loop
        = c0 + N) := by
  refine ⟨?_, ?_, ?_, ?_⟩
  · intro hd
    exact (init_ok_fields w s h m co r d hd).1
  · cases htask : d2.task <;> simp [Loop.cancel, htask]
  · intro p hp
    cases htask : d3.task with
    | some t => simp [Loop.start, htask] at hp
    | none =>
      simp only [Loop.start, htask, Except.ok.injEq] at hp
      rw [← hp]
  · intro hnone
    rw [runLoop_of_not_raising cfg .unset .unset c0 _ (Or.inl rfl)]
    rw [runBody_successes cfg vs N c0 _ (by simp [hnone])]
    simp

/-- Witness for C10 at concrete drivers and a concrete resumed run. -/
theorem counter_persistence_witness :
    sampleLoop.current_loop = 0 ∧
    (Loop.cancel finishedLoop).1.current_loop = finishedLoop.current_loop ∧
    ({ sampleLoop with task := some { id := 1, done := false } } : Loop).current_loop
      = sampleLoop.current_loop ∧
    (runLoop cfg0 .unset .unset 3 (List.replicate 2 ([], .success))).current_loop
      = 5 := by
  have h := counter_persistence true 0 0 0 none true sampleLoop finishedLoop
    sampleLoop 1 cfg0 3 2 []
  have hinit2 : Loop.init true 0 0 0 none true = .ok sampleLoop := by
    norm_num [Loop.init, MAX_ASYNCIO_SECONDS, sampleLoop]
  refine ⟨h.1 hinit2, h.2.1, ?_, h.2.2.2 rfl⟩
  exact h.2.2.1
    ({ sampleLoop with task := some { id := 1, done := false } },
     { id := 1, done := false }) rfl

/-- The trace of a run with unset hooks is exactly the loop-body trace. -/
theorem runLoop_unset_trace (cfg : RunCfg) (c0 : Nat) (s : Script) :
    (runLoop cfg .unset .unset c0 s).trace =
      (runBody cfg c0 (ExponentialBackoff.init cfg.base cfg.cap) s).1 := by
  rw [runLoop_of_not_raising _ _ _ _ _ (Or.inl rfl)]
  by_cases hout :
      (runBody cfg c0 (ExponentialBackoff.init cfg.base cfg.cap) s).2.1 =
        RunStatus.outOfScript
  · rw [if_pos hout]
    simp [hookTrace]
  · rw [if_neg hout]
    simp [hookTrace]

/-- C1 (amended): when the before-hook does not raise, the after-hook (set
and succeeding here) is invoked exactly once whenever the loop lifetime
ends — normal completion, fatal failure, or cancellation alike; but when
the before-hook raises, the work is never invoked and the after-hook is NOT
invoked at all, because `_call_loop_function('before_loop')` sits outside
the `try`/`finally`, so the failure propagates before the cleanup scope is
entered. -/
theorem after_hook_once_unless_before_raises (cfg : RunCfg) (bh : HookSpec)
    (c0 : Nat) (s : Script) (k : Nat)
    (hbh : bh = HookSpec.unset ∨ bh = HookSpec.ok) :
    ((runLoop cfg bh .ok c0 s).status ≠ .outOfScript →
      (runLoop cfg bh .ok c0 s).trace.count Ev.after = 1) ∧
    (runLoop cfg (.raises k) .ok c0 s).trace.count Ev.work = 0 ∧
    (runLoop cfg (.raises k) .ok c0 s).trace.count Ev.after = 0 ∧
    (runLoop cfg (.raises k) .ok c0 s).status = .beforeHookFailed k := by
  refine ⟨?_, rfl, rfl, rfl⟩
  intro hst
  rw [runLoop_of_not_raising cfg bh .ok c0 s hbh] at hst ⊢
  by_cases hout :
      (runBody cfg c0 (ExponentialBackoff.init cfg.base cfg.cap) s).2.1 =
        RunStatus.outOfScript
  · rw [if_pos hout] at hst
    exact absurd rfl hst
  · rw [if_neg hout]
    show (hookTrace bh .before ++
        (runBody cfg c0 (ExponentialBackoff.init cfg.base cfg.cap) s).1 ++
        hookTrace .ok .after).count Ev.after = 1
    have h0 : (runBody cfg c0 (ExponentialBackoff.init cfg.base cfg.cap) s).1.count
        Ev.after = 0 :=
      List.count_eq_zero.mpr (runBody_no_hook_events cfg s c0 _).1
    rcases hbh with h | h <;> subst h <;>
      simp [hookTrace, List.count_append, List.count_cons, h0]

/-- Witness for C1 at a concrete completed run and a concrete raising
before-hook. -/
theorem after_hook_once_unless_before_raises_witness :
    (runLoop cfg3 .ok .ok 0 (List.replicate 3 ([], .success))).trace.count
      Ev.after = 1 ∧
    (runLoop cfg3 (.raises 7) .ok 0 (List.replicate 3 ([], .success))).trace.count
      Ev.work = 0 ∧
    (runLoop cfg3 (.raises 7) .ok 0 (List.replicate 3 ([], .success))).trace.count
      Ev.after = 0 ∧
    (runLoop cfg3 (.raises 7) .ok 0 (List.replicate 3 ([], .success))).status =
      .beforeHookFailed 7 := by
  have h := after_hook_once_unless_before_raises cfg3 .ok 0
    (List.replicate 3 ([], .success)) 7 (Or.inr rfl)
  exact ⟨h.1 (by decide), h.2.1, h.2.2.1, h.2.2.2⟩

/-- Counterexample to C1 as stated: a raising before-hook ends the run
(its failure is the run's outcome), the work is never invoked — but the
set after-hook is invoked zero times, not once. -/
theorem before_raise_skips_after_hook_counterexample :
    (runLoop cfg0 (.raises 5) .ok 0 []).status = .beforeHookFailed 5 ∧
    (runLoop cfg0 (.raises 5) .ok 0 []).trace.count Ev.work = 0 ∧
    (runLoop cfg0 (.raises 5) .ok 0 []).trace.count Ev.after ≠ 1 := by
  refine ⟨rfl, rfl, ?_⟩
  decide

/-- C4: a work failure whose tag is in the current retryable set, with
retry enabled, leaves the iteration counter untouched, performs no
fixed-interval sleep — only the backoff delay is slept — and re-attempts
the same iteration: the remaining run continues from the identical counter
with only the backoff state advanced. -/
theorem retryable_failure_retries_same_iteration (cfg : RunCfg) (c : Nat)
    (b : ExponentialBackoff) (vs : List Nat) (k : Nat) (rest : Script)
    (hk : k ∈ vs) (hr : cfg.reconnect = true) :
    runBody cfg c b ((vs, WorkOutcome.failure k) :: rest) =
      (Ev.work :: Ev.sleepBackoff b.cur :: (runBody cfg c b.delay.2 rest).1,
       (runBody cfg c b.delay.2 rest).2) ∧
    (runBody cfg c b ((vs, WorkOutcome.failure k) :: rest)).2.2 =
      (runBody cfg c b.delay.2 rest).2.2 ∧
    (runBody cfg c b ((vs, WorkOutcome.failure k) :: rest)).1.count
        (Ev.sleepFixed cfg.sleep) =
      (runBody cfg c b.delay.2 rest).1.count (Ev.sleepFixed cfg.sleep) := by
  have h1 : runBody cfg c b ((vs, WorkOutcome.failure k) :: rest) =
      (Ev.work :: Ev.sleepBackoff b.cur :: (runBody cfg c b.delay.2 rest).1,
       (runBody cfg c b.delay.2 rest).2) := by
    rw [runBody_cons_failure, if_pos hk, if_pos hr]
    rfl
  refine ⟨h1, by rw [h1], ?_⟩
  rw [h1]
  simp [List.count_cons]

/-- Witness for C4 at a concrete retryable failure. -/
theorem retryable_failure_retries_same_iteration_witness :
    runBody cfg0 0 (ExponentialBackoff.init 1 120)
        (([0], WorkOutcome.failure 0) :: []) =
      (Ev.work :: Ev.sleepBackoff (ExponentialBackoff.init 1 120).cur ::
        (runBody cfg0 0 (ExponentialBackoff.init 1 120).delay.2 []).1,
       (runBody cfg0 0 (ExponentialBackoff.init 1 120).delay.2 []).2) :=
  (retryable_failure_retries_same_iteration cfg0 0 (ExponentialBackoff.init 1 120)
    [0] 0 [] (by decide) rfl).1

/-- C5: a work failure outside the current retryable set, or any matching
failure with retry disabled, ends the loop with that fatal outcome as the
awaited task's status, the after-hook still running exactly once; the
work is invoked once and not re-attempted, the counter is unchanged; and
`start` itself succeeds for any non-running driver irrespective of what the
work will do, so the failure surfaces on the handle, never out of `start`. -/
theorem fatal_failure_stops_loop (cfg : RunCfg) (c0 : Nat) (vs : List Nat)
    (k : Nat) (rest : Script) (bh : HookSpec)
    (hbh : bh = HookSpec.unset ∨ bh = HookSpec.ok)
    (hfatal : k ∉ vs ∨ cfg.reconnect = false) :
    (runLoop cfg bh .ok c0 ((vs, .failure k) :: rest)).status = .fatal k ∧
    (runLoop cfg bh .ok c0 ((vs, .failure k) :: rest)).trace.count Ev.after = 1 ∧
    (runLoop cfg bh .ok c0 ((vs, .failure k) :: rest)).trace.count Ev.work = 1 ∧
    (runLoop cfg bh .ok c0 ((vs, .failure k) :: rest)).current_loop = c0 ∧
    (∀ (d : Loop) (i : Nat), d.task = none → ∃ p, Loop.start d i = Except.ok p) := by
  have hbody : runBody cfg c0 (ExponentialBackoff.init cfg.base cfg.cap)
      ((vs, WorkOutcome.failure k) :: rest) = ([.work], .fatal k, c0) := by
    rw [runBody_cons_failure]
    rcases hfatal with h | h
    · rw [if_neg h]
    · by_cases hk : k ∈ vs
      · rw [if_pos hk, if_neg (by simp [h])]
      · rw [if_neg hk]
  have hstart : ∀ (d : Loop) (i : Nat), d.task = none →
      ∃ p, Loop.start d i = Except.ok p := by
    intro d i hd
    exact ⟨({ d with task := some { id := i, done := false } },
            { id := i, done := false }), by simp [Loop.start, hd]⟩
  rcases hbh with h | h <;> subst h <;>
    exact ⟨by simp [runLoop, hbody, hookTrace],
           by simp [runLoop, hbody, hookTrace, List.count_append, List.count_cons],
           by simp [runLoop, hbody, hookTrace, List.count_append, List.count_cons],
           by simp [runLoop, hbody, hookTrace],
           hstart⟩

/-- Witness for C5 at a concrete non-retryable failure (tag 9 is outside
the empty retryable set). -/
theorem fatal_failure_stops_loop_witness :
    (runLoop cfg0 .unset .ok 0 [([], .failure 9)]).status = .fatal 9 ∧
    (runLoop cfg0 .unset .ok 0 [([], .failure 9)]).trace.count Ev.after = 1 ∧
    (runLoop cfg0 .unset .ok 0 [([], .failure 9)]).trace.count Ev.work = 1 ∧
    (runLoop cfg0 .unset .ok 0 [([], .failure 9)]).current_loop = 0 := by
  have h := fatal_failure_stops_loop cfg0 0 [] 9 [] .unset (Or.inl rfl)
    (Or.inl (by decide))
  exact ⟨h.1, h.2.1, h.2.2.1, h.2.2.2.1⟩

/-- An uninterrupted run of retryable failures sleeps exactly the
spec-modelled doubling sequence of delays, and never moves the counter. -/
theorem runBody_failures_delays (cfg : RunCfg) (vs : List Nat) (k : Nat)
    (hk : k ∈ vs) (hr : cfg.reconnect = true) :
    ∀ (n c : Nat) (b : ExponentialBackoff),
      backoffDelays (runBody cfg c b (List.replicate n (vs, .failure k))).1 =
        delaySeq b.cap b.cur n ∧
      (runBody cfg c b (List.replicate n (vs, .failure k))).2.2 = c := by
  intro n
  induction n with
  | zero => intro c b; simp [runBody_nil, backoffDelays, delaySeq]
  | succ m ih =>
    intro c b
    have hstep := runBody_cons_failure cfg c b vs k
      (List.replicate m (vs, WorkOutcome.failure k))
    rw [if_pos hk, if_pos hr] at hstep
    rw [List.replicate_succ, hstep]
    refine ⟨?_, (ih c b.delay.2).2⟩
    show backoffDelays (Ev.work :: Ev.sleepBackoff b.delay.1 ::
        (runBody cfg c b.delay.2 (List.replicate m (vs, .failure k))).1) =
      delaySeq b.cap b.cur (m + 1)
    rw [show backoffDelays (Ev.work :: Ev.sleepBackoff b.delay.1 ::
          (runBody cfg c b.delay.2 (List.replicate m (vs, .failure k))).1) =
        b.delay.1 :: backoffDelays
          (runBody cfg c b.delay.2 (List.replicate m (vs, .failure k))).1
      from rfl]
    rw [(ih c b.delay.2).1]
    rfl

/-- The spec-modelled delay sequence is non-decreasing and bounded by the
ceiling, as long as it starts inside `[0, cap]`. -/
theorem delaySeq_nonDecreasing_le_cap (cap : ℚ) :
    ∀ (n : Nat) (b : ℚ), 0 ≤ b → b ≤ cap →
      List.Chain' (fun x y => x ≤ y) (delaySeq cap b n) ∧
      ∀ x ∈ delaySeq cap b n, x ≤ cap := by
  intro n
  induction n with
  | zero =>
    intro b hb0 hbc
    exact ⟨by simp [delaySeq], by simp [delaySeq]⟩
  | succ m ih =>
    intro b hb0 hbc
    have hnext0 : 0 ≤ min (2 * b) cap :=
      le_min (by linarith) (le_trans hb0 hbc)
    have hnextc : min (2 * b) cap ≤ cap := min_le_right _ _
    have ihm := ih (min (2 * b) cap) hnext0 hnextc
    constructor
    · rw [show delaySeq cap b (m + 1) =
          b :: delaySeq cap (min (2 * b) cap) m from rfl]
      refine List.chain'_cons'.mpr ⟨?_, ihm.1⟩
      intro y hy
      cases m with
      | zero => simp [delaySeq] at hy
      | succ m2 =>
        rw [show delaySeq cap (min (2 * b) cap) (m2 + 1) =
            (min (2 * b) cap) ::
              delaySeq cap (min (2 * min (2 * b) cap) cap) m2 from rfl] at hy
        simp only [List.head?_cons, Option.mem_def, Option.some.injEq] at hy
        rw [← hy]
        exact le_min (by linarith) hbc
    · intro x hx
      rw [show delaySeq cap b (m + 1) =
          b :: delaySeq cap (min (2 * b) cap) m from rfl] at hx
      rcases List.mem_cons.mp hx with h | h
      · rw [h]; exact hbc
      · exact ihm.2 x h

/-- C8 (amended): each run's backoff generator starts at the base delay, so
the first retryable failure of a run sleeps the base delay, and the delays
of consecutive retryable failures are non-decreasing and bounded by the
cap; but a successful iteration does NOT reset the generator — the loop
carries the backoff state unchanged across a success, so the first
retryable failure after a success continues from the pre-success state. -/
theorem backoff_monotone_not_reset_on_success (cfg : RunCfg) (vs : List Nat)
    (k : Nat) (n c c2 : Nat) (b : ExponentialBackoff) (rest : Script)
    (hk : k ∈ vs) (hr : cfg.reconnect = true)
    (hb0 : 0 ≤ cfg.base) (hbc : cfg.base ≤ cfg.cap) :
    (backoffDelays
        (runLoop cfg .unset .unset c ((vs, .failure k) :: rest)).trace).head? =
      some cfg.base ∧
    List.Chain' (fun x y => x ≤ y)
      (backoffDelays
        (runLoop cfg .unset .unset c (List.replicate n (vs, .failure k))).trace) ∧
    (∀ x ∈ backoffDelays
        (runLoop cfg .unset .unset c (List.replicate n (vs, .failure k))).trace,
      x ≤ cfg.cap) ∧
    (cfg.count ≠ some ((c2 + 1 : Nat) : Int) →
      runBody cfg c2 b ((vs, .success) :: rest) =
        (Ev.work :: Ev.sleepFixed cfg.sleep :: (runBody cfg (c2 + 1) b rest).1,
         (runBody cfg (c2 + 1) b rest).2)) := by
  have hdelays := runBody_failures_delays cfg vs k hk hr n c
    (ExponentialBackoff.init cfg.base cfg.cap)
  have hchain := delaySeq_nonDecreasing_le_cap cfg.cap n cfg.base hb0 hbc
  refine ⟨?_, ?_, ?_, ?_⟩
  · rw [runLoop_unset_trace]
    have hstep := runBody_cons_failure cfg c
      (ExponentialBackoff.init cfg.base cfg.cap) vs k rest
    rw [if_pos hk, if_pos hr] at hstep
    rw [hstep]
    rfl
  · rw [runLoop_unset_trace, hdelays.1]
    exact hchain.1
  · rw [runLoop_unset_trace, hdelays.1]
    exact hchain.2
  · intro hc2
    rw [runBody_cons_success, if_neg hc2]

/-- Witness for C8 at a concrete run of failures. -/
theorem backoff_monotone_not_reset_on_success_witness :
    (backoffDelays
        (runLoop cfg0 .unset .unset 0 (([0], .failure 0) :: [])).trace).head? =
      some cfg0.base :=
  (backoff_monotone_not_reset_on_success cfg0 [0] 0 3 0 0
    (ExponentialBackoff.init 1 120) [] (by decide) rfl
    (by norm_num [cfg0]) (by norm_num [cfg0])).1

/-- Counterexample to C8 as stated: a retryable failure, then a success,
then another retryable failure.  The run's backoff delays are `[1, 2]`
with base delay 1: the delay for the first retryable failure following the
success is 2, not the base delay — the successful iteration did not reset
the backoff state. -/
theorem backoff_reset_on_success_counterexample :
    cfg0.base = 1 ∧
    backoffDelays
        (runLoop cfg0 .unset .unset 0
          [([0], .failure 0), ([0], .success), ([0], .failure 0)]).trace =
      [1, 2] := by
  have hmin : min (2 * (1 : ℚ)) 120 = 2 := by norm_num
  refine ⟨rfl, ?_⟩
  rw [runLoop_unset_trace]
  norm_num [runBody, backoffDelays, cfg0, ExponentialBackoff.init,
    ExponentialBackoff.delay, hmin]

end DiscordTasks
